import Mathlib

/-!
Verification of the ryoshu component codec and dispatch pipeline.

Shallow embedding of `src/ryoshu/impl/parser/builtins.py`,
`src/ryoshu/impl/parser/base.py`, `src/ryoshu/impl/factory.py` and
`src/ryoshu/impl/manager.py`.  Python values relevant to the claims are
modelled by `PyValue`, Python exceptions by `PyErr`, and fallible Python
calls return `Except PyErr`.
-/

namespace Ryoshu

/-- Python runtime values that flow through the parsers under test. -/
inductive PyValue where
  | vnone
  | vint (z : Int)
  | vstr (s : String)
  | vbool (b : Bool)
deriving DecidableEq

/-- Python truthiness (`not argument` is `!pyFalsy` negated): `None`, `0`,
`""` and `False` are falsy. -/
def pyFalsy : PyValue → Bool
  | .vnone => true
  | .vint z => z == 0
  | .vstr s => s == ""
  | .vbool b => !b

/-- Python exceptions raised by the embedded code. -/
inductive PyErr where
  | valueError (msg : String)
  | typeError (msg : String)
  | runtimeError (msg : String)
  | keyError (msg : String)
deriving DecidableEq

instance {ε α : Type} [DecidableEq ε] [DecidableEq α] : DecidableEq (Except ε α) :=
  fun x y =>
    match x, y with
    | .ok a, .ok b =>
        if h : a = b then .isTrue (by rw [h]) else .isFalse (by intro hh; cases hh; exact h rfl)
    | .error a, .error b =>
        if h : a = b then .isTrue (by rw [h]) else .isFalse (by intro hh; cases hh; exact h rfl)
    | .ok _, .error _ => .isFalse (by intro hh; cases hh)
    | .error _, .ok _ => .isFalse (by intro hh; cases hh)

/-- `true` iff the computation succeeded (did not raise). -/
def exOk {ε α : Type} : Except ε α → Bool
  | .ok _ => true
  | .error _ => false

/-! ## Integer codec (`IntParser`, builtins.py lines 164-254)

`loads` is Python `int(argument, base)` followed by the sign check;
`dumps` is the short-circuit chain followed by the manual base-conversion
loop.  The model of `int(s, base)` covers an optional sign followed by
base-`base` digits (`0-9`, `a-z`, `A-Z`); Python extras such as embedded
underscores or surrounding whitespace are outside every claim's inputs. -/

/-- Value of one digit character, as accepted by Python `int(s, base)`. -/
def digitVal (c : Char) : Option Nat :=
  if '0' ≤ c ∧ c ≤ '9' then some (c.toNat - '0'.toNat)
  else if 'a' ≤ c ∧ c ≤ 'z' then some (c.toNat - 'a'.toNat + 10)
  else if 'A' ≤ c ∧ c ≤ 'Z' then some (c.toNat - 'A'.toNat + 10)
  else none

/-- Accumulate base-`base` digits left to right; `none` on an invalid digit. -/
def digitsToNatAux (base : Nat) (acc : Nat) : List Char → Option Nat
  | [] => some acc
  | c :: cs =>
    match digitVal c with
    | some d => if d < base then digitsToNatAux base (acc * base + d) cs else none
    | none => none

/-- Python `int(s, base)`: optional sign, then at least one valid digit. -/
def pyIntOfString (base : Nat) (s : String) : Except PyErr Int :=
  match s.data with
  | '-' :: rest =>
    match rest, digitsToNatAux base 0 rest with
    | _ :: _, some n => .ok (-(n : Int))
    | _, _ => .error (.valueError "invalid literal for int")
  | '+' :: rest =>
    match rest, digitsToNatAux base 0 rest with
    | _ :: _, some n => .ok ((n : Int))
    | _, _ => .error (.valueError "invalid literal for int")
  | cs =>
    match cs, digitsToNatAux base 0 cs with
    | _ :: _, some n => .ok ((n : Int))
    | _, _ => .error (.valueError "invalid literal for int")

/-- `_INT_CHARS[d]`: digit characters `0-9` then `a-z` (builtins.py line 25). -/
def intChar (d : Nat) : Char :=
  if d < 10 then Char.ofNat ('0'.toNat + d) else Char.ofNat ('a'.toNat + d - 10)

/-- Worker for `natToDigits`, structurally recursive on a fuel bound on the
iteration count (for `base ≥ 2` the value at least halves each step, so a
fuel of `n` never runs out). -/
def natToDigitsAux (base : Nat) : Nat → Nat → List Char
  | _, 0 => []
  | 0, _ => []
  | fuel + 1, n => natToDigitsAux base fuel (n / base) ++ [intChar (n % base)]

/-- The manual conversion loop of `IntParser.dumps` (lines 249-254): repeated
`% base` / `//= base`, digits joined most-significant first.  Yields `[]` for
`0`, exactly like the `while argument:` loop.  (Only meaningful for
`base ≥ 2`, which `IntParser.__init__` enforces.) -/
def natToDigits (base n : Nat) : List Char :=
  natToDigitsAux base n n

/-- Python `format(n, "b" / "o" / "x")` for a nonnegative value: positional
digits, with `"0"` for zero. -/
def pyFormatBase (base n : Nat) : String :=
  if n = 0 then "0" else String.mk (natToDigits base n)

/-- Configuration of `IntParser` (defaults `signed=True`, `base=36`). -/
structure IntParserCfg where
  signed : Bool := true
  base : Nat := 36
deriving DecidableEq

/-- `IntParser.loads` (lines 204-225): `int(argument, base)`, then reject
negative results when unsigned. -/
def int_loads (cfg : IntParserCfg) (s : String) : Except PyErr Int := do
  let r ← pyIntOfString cfg.base s
  if cfg.signed = false ∧ r < 0 then
    .error (.valueError "Unsigned numbers cannot be less than 0.")
  else
    .ok r

/-- `IntParser.dumps` (lines 227-254), including the `argument < base`
short-circuit to `str(argument)` and the `_BASE_HEXADECIMAL = 12` constant
(line 30), which makes `base == 12` render in hexadecimal. -/
def int_dumps (cfg : IntParserCfg) (z : Int) : String :=
  if z < (cfg.base : Int) then toString z
  else if cfg.base = 2 then pyFormatBase 2 z.toNat
  else if cfg.base = 8 then pyFormatBase 8 z.toNat
  else if cfg.base = 10 then toString z
  else if cfg.base = 12 then pyFormatBase 16 z.toNat
  else String.mk (natToDigits cfg.base z.toNat)

/-! ## Field parsers (`NoneParser`, `BoolParser`, `StringParser`)

The parsers that occur inside composites are gathered in one inductive so
that `CollectionParser` / `UnionParser` can hold them uniformly, the way the
Python composites hold arbitrary parser objects.  A `dumps` applied to a
value of the wrong runtime type models Python raising (`TypeError` from the
operations inside the method body). -/

/-- The concrete parser objects needed by the claims. -/
inductive FieldParser where
  | noneP (strict : Bool)
  | intP (cfg : IntParserCfg)
  | strP
  | boolP (trues falses : List String)
deriving DecidableEq

/-- `loads` of each parser: `NoneParser.loads` (lines 66-89), `IntParser.loads`,
`StringParser.loads` (identity), `BoolParser.loads` (membership in the
configured truthy/falsy sets). -/
def fp_loads : FieldParser → String → Except PyErr PyValue
  | .noneP strict, s =>
    if s = "" ∨ strict = false then .ok .vnone
    else .error (.valueError "Strict NoneParsers can only load the empty string.")
  | .intP cfg, s => (int_loads cfg s).map .vint
  | .strP, s => .ok (.vstr s)
  | .boolP trues falses, s =>
    if s ∈ trues then .ok (.vbool true)
    else if s ∈ falses then .ok (.vbool false)
    else .error (.valueError "Failed to parse into a bool.")

/-- `dumps` of each parser: `NoneParser.dumps` (lines 91-114), `IntParser.dumps`,
`StringParser.dumps` (identity), `BoolParser.dumps` (`"1"` / `"0"`). -/
def fp_dumps : FieldParser → PyValue → Except PyErr String
  | .noneP strict, v =>
    if v = .vnone ∨ strict = false then .ok ""
    else .error (.valueError "Strict NoneParsers can only dump None.")
  | .intP cfg, v =>
    match v with
    | .vint z => .ok (int_dumps cfg z)
    | _ => .error (.typeError "IntParser.dumps expects an int")
  | .strP, v =>
    match v with
    | .vstr s => .ok s
    | _ => .error (.typeError "StringParser.dumps expects a str")
  | .boolP _ _, v =>
    match v with
    | .vbool b => .ok (if b then "1" else "0")
    | _ => .error (.typeError "BoolParser.dumps expects a bool")

/-! ## `CollectionParser` (builtins.py lines 532-657) -/

/-- Worker for `pySplit`, structurally recursive on a fuel bound on the
character count (each step consumes at least one character, so a fuel of the
input length never runs out). -/
def pySplitAux (sep : List Char) : Nat → List Char → List (List Char)
  | _, [] => [[]]
  | 0, cs => [cs]
  | fuel + 1, c :: cs =>
    if sep.isPrefixOf (c :: cs) ∧ sep ≠ [] then
      [] :: pySplitAux sep fuel ((c :: cs).drop sep.length)
    else
      match pySplitAux sep fuel cs with
      | [] => [[c]]
      | frag :: rest => (c :: frag) :: rest

/-- Python `s.split(sep)` for a nonempty separator: scan left to right,
cutting at each separator occurrence and keeping empty fragments
(`"a,,b".split(",") == ["a", "", "b"]`, `"".split(",") == [""]`). -/
def pySplit (sep s : String) : List String :=
  (pySplitAux sep.data s.data.length s.data).map String.mk

/-- Python `str.isspace()`: nonempty and every character is whitespace.
In particular `"".isspace()` is `False`. -/
def pyIsSpace (s : String) : Bool :=
  !s.data.isEmpty && s.data.all (fun c => c.isWhitespace)

/-- The list comprehension of `CollectionParser.loads` (lines 635-639): for
each fragment, skip it when `part.isspace()`, otherwise parse it with the
inner parser (errors propagate). -/
def collFragments (inner : FieldParser) : List String → Except PyErr (List PyValue)
  | [] => .ok []
  | part :: rest =>
    if pyIsSpace part then collFragments inner rest
    else do
      let v ← fp_loads inner part
      let vs ← collFragments inner rest
      .ok (v :: vs)

/-- `CollectionParser.loads` (lines 613-641): split the argument on the
configured separator, then run the fragment comprehension.  The container is
modelled as the default `list`. -/
def collection_loads (inner : FieldParser) (sep : String) (argument : String) :
    Except PyErr (List PyValue) :=
  collFragments inner (pySplit sep argument)

/-- `CollectionParser.dumps` (lines 643-657): dump every element and join on
the string literal `","` (line 652) — NOT on `self.sep`. -/
def collection_dumps (inner : FieldParser) (vs : List PyValue) : Except PyErr String := do
  let parts ← vs.mapM (fp_dumps inner)
  .ok (String.intercalate "," parts)

/-- Fragment parsing without the skip filter (used to state what
`collection_loads` does to the fragments that are kept). -/
def loadFragments (inner : FieldParser) : List String → Except PyErr (List PyValue)
  | [] => .ok []
  | part :: rest => do
    let v ← fp_loads inner part
    let vs ← loadFragments inner rest
    .ok (v :: vs)

/-! ## `UnionParser` (builtins.py lines 660-805) -/

/-- A constructed `UnionParser`: its ordered inner parsers and whether it is
optional.  When optional, the constructor has appended a strict `NoneParser`
as the last inner parser. -/
structure UnionCfg where
  inner : List FieldParser
  optional : Bool
deriving DecidableEq

/-- `UnionParser.__init__` (lines 688-704): at least two arguments; `None`
among them sets `optional` and is removed; a strict `NoneParser` is appended
last when optional. -/
def mkUnion (args : List (Option FieldParser)) : Except PyErr UnionCfg :=
  if args.length < 2 then
    .error (.typeError "A Union requires two or more type arguments.")
  else
    let optional := args.any (fun a => a.isNone)
    let inner := args.filterMap id
    .ok { inner := if optional then inner ++ [.noneP true] else inner, optional := optional }

/-- `UnionParser.strict` (lines 713-725): `True` when not optional, else the
`strict` flag of the trailing `NoneParser`. -/
def unionStrict (u : UnionCfg) : Bool :=
  if u.optional = false then true
  else
    match u.inner.getLast? with
    | some (.noneP s) => s
    | _ => true

/-- The scanning loop of `UnionParser.loads` (lines 769-774): try each inner
parser in order, suppress every failure, return the first success; raise
`RuntimeError` when all fail.  The second component records which parsers
were invoked, in order. -/
def scanLoads (s : String) : List FieldParser → Except PyErr PyValue × List FieldParser
  | [] => (.error (.runtimeError "Failed to parse input to any type in the Union."), [])
  | p :: ps =>
    match fp_loads p s with
    | .ok v => (.ok v, [p])
    | .error _ =>
      let (r, log) := scanLoads s ps
      (r, p :: log)

/-- `UnionParser.loads` (lines 738-774): quick-return `None` (invoking no
inner parser) when the argument is empty and the union is optional, else run
the scanning loop. -/
def union_loads (u : UnionCfg) (s : String) : Except PyErr PyValue × List FieldParser :=
  if s = "" ∧ u.optional = true then (.ok .vnone, [])
  else scanLoads s u.inner

/-- The scanning loop of `UnionParser.dumps` (lines 796-798): first inner
parser whose `dumps` succeeds. -/
def firstOkDump (v : PyValue) : List FieldParser → Option String
  | [] => none
  | p :: ps =>
    match fp_dumps p v with
    | .ok s => some s
    | .error _ => firstOkDump v ps

/-- `UnionParser.dumps` (lines 776-805): quick-return `""` when the argument
is falsy and the union is optional (line 793); otherwise scan the inner
parsers in order; when all fail, return `""` if optional and non-strict,
else raise `RuntimeError`.  (The Python message interpolates the argument
repr; the model uses a fixed message.) -/
def union_dumps (u : UnionCfg) (v : PyValue) : Except PyErr String :=
  if pyFalsy v = true ∧ u.optional = true then .ok ""
  else
    match firstOkDump v u.inner with
    | some s => .ok s
    | none =>
      if u.optional = true ∧ unionStrict u = false then .ok ""
      else .error (.runtimeError "Failed to dump input to any type in the Union.")

/-! ## Parser registry (`parser/base.py` lines 20-99)

Python types are modelled by opaque keys (`TypeKey`), parser classes by
`ParserKey`.  Python dicts are association lists with insertion-order
iteration and in-place overwrite, matching dict semantics. -/

abbrev TypeKey := Nat
abbrev ParserKey := Nat

/-- Python `d[k]` / `k in d`: first (unique) matching key. -/
def dictGet {κ β : Type} [DecidableEq κ] : List (κ × β) → κ → Option β
  | [], _ => none
  | (k, v) :: rest, q => if q = k then some v else dictGet rest q

/-- Python `d[k] = v`: overwrite in place, else append (insertion order). -/
def dictSet {κ β : Type} [DecidableEq κ] : List (κ × β) → κ → β → List (κ × β)
  | [], k, v => [(k, v)]
  | (k0, v0) :: rest, k, v =>
    if k = k0 then (k0, v) :: rest else (k0, v0) :: dictSet rest k v

/-- Python `d.pop(k)`: remove the entry for `k` when present. -/
def dictPop {κ β : Type} [DecidableEq κ] : List (κ × β) → κ → List (κ × β)
  | [], _ => []
  | (k0, v0) :: rest, k =>
    if k = k0 then rest else (k0, v0) :: dictPop rest k

/-- The ambient Python type system: `issub t types` is `issubclass(t, tuple(types))`,
with `none` modelling the `TypeError` raised for special generic forms. -/
structure TypeEnv where
  issub : TypeKey → List TypeKey → Option Bool

/-- `_issubclass` (base.py lines 71-81): try `issubclass`; on `TypeError`
fall back to identity comparison against the tuple members. -/
def pyIssubclass (env : TypeEnv) (t : TypeKey) (types : List TypeKey) : Bool :=
  match env.issub t types with
  | some b => b
  | none => types.any (fun t0 => t0 == t)

/-- The three module-level registries of `parser/base.py` (lines 20-22):
`_PARSERS`, `_REV_PARSERS` and `_PARSER_PRIORITY`. -/
structure RegState where
  parsers : List (TypeKey × ParserKey)
  revParsers : List (ParserKey × List TypeKey)
  priority : List (ParserKey × Int)
deriving DecidableEq

/-- `register_parser` with the default `force=True` (lines 25-56): overwrite
`_REV_PARSERS` and `_PARSER_PRIORITY` for the parser, then point every listed
type at it in `_PARSERS`.  (Generic-origin extraction on the types is done by
the caller in Python and is outside the registry itself.) -/
def registerParserM (st : RegState) (p : ParserKey) (types : List TypeKey) (prio : Int) :
    RegState :=
  { parsers := types.foldl (fun d t => dictSet d t p) st.parsers
    revParsers := dictSet st.revParsers p types
    priority := dictSet st.priority p prio }

/-- The fold performed by Python `max(iterable, key=...)`: keep the current
best and replace it only on a strictly greater key, so the FIRST maximal
element of the iteration wins. -/
def pyMaxFold {α : Type} (key : α → Int) (x : α) : List α → α
  | [] => x
  | y :: ys => pyMaxFold key (if key y > key x then y else x) ys

/-- Python `max(iterable, default=None, key=...)`. -/
def pyMaxByKey {α : Type} (key : α → Int) : List α → Option α
  | [] => none
  | x :: xs => some (pyMaxFold key x xs)

/-- The first list element whose key is maximal (the earliest-registered
entry of highest priority). -/
def firstMaxByKey {α : Type} (key : α → Int) (l : List α) : Option α :=
  l.find? (fun x => l.all (fun y => decide (key y ≤ key x)))

/-- The generator expression inside `_get_parser_type` (line 91): every
registered entry whose declared types accept the queried type. -/
def candidateEntries (env : TypeEnv) (st : RegState) (t : TypeKey) :
    List (ParserKey × List TypeKey) :=
  st.revParsers.filter (fun e => pyIssubclass env t e.2)

/-- Priority of a registry entry (`_PARSER_PRIORITY.__getitem__`; the two
dicts are written together, so the key is always present for entries of
`_REV_PARSERS`). -/
def prioOf (st : RegState) (e : ParserKey × List TypeKey) : Int :=
  (dictGet st.priority e.1).getD 0

/-- `_get_parser_type` (base.py lines 84-99): exact `_PARSERS` lookup first;
on a miss, `max` over the matching `_REV_PARSERS` entries keyed by priority;
`TypeError` when nothing matches. -/
def getParserType (env : TypeEnv) (st : RegState) (t : TypeKey) : Except PyErr ParserKey :=
  match dictGet st.parsers t with
  | some p => .ok p
  | none =>
    match pyMaxByKey (prioOf st) (candidateEntries env st t) with
    | some e => .ok e.1
    | none => .error (.typeError "No parser available for type.")

/-! ## `ComponentFactory` (factory.py lines 21-134)

A component type's factory holds the ordered custom-id fields with their
parsers; a component instance is its attribute mapping. -/

/-- One custom-id field: its name and its parser. -/
structure CompField where
  name : String
  fp : FieldParser
deriving DecidableEq

/-- A `ComponentFactory`: the ordered `field name -> parser` mapping. -/
structure Factory where
  fields : List CompField
deriving DecidableEq

/-- The dict comprehension of `load_params` (lines 112-116): zip fields with
the supplied strings, skipping pairs whose value is the empty string
(`if value`); parser errors propagate. -/
def loadZip : List CompField → List String → Except PyErr (List (String × PyValue))
  | [], _ => .ok []
  | _, [] => .ok []
  | fld :: fs, v :: vs =>
    if v = "" then loadZip fs vs
    else do
      let pv ← fp_loads fld.fp v
      let rest ← loadZip fs vs
      .ok ((fld.name, pv) :: rest)

/-- `ComponentFactory.load_params` (lines 100-116): `ValueError` when the
parameter count differs from the field count, else the filtered zip. -/
def load_params (f : Factory) (params : List String) : Except PyErr (List (String × PyValue)) :=
  if params.length ≠ f.fields.length then
    .error (.valueError "Component parameter count mismatch.")
  else
    loadZip f.fields params

/-- `ComponentFactory.dump_params` (lines 118-124): dump each field's
attribute value in field order (the `.values()` of the resulting mapping). -/
def dump_params (f : Factory) (inst : List (String × PyValue)) : Except PyErr (List String) :=
  f.fields.mapM (fun fld =>
    match dictGet inst fld.name with
    | some v => fp_dumps fld.fp v
    | none => .error (.typeError "component instance lacks a declared custom id attribute"))

/-! ## `ComponentManager` custom-id codec and parse step (manager.py)

`MgrState` is one manager with its inheritance-resolved configuration
(`sep`, `count`) and its registration dicts; registration propagation over
the manager tree is modelled separately below for C9/C10. -/

/-- `_minimise_count` (lines 70-76): one latin-1 character for a count in
`[0, 25)`; code point equals the byte value. -/
def minimiseCount (n : Nat) : Char := Char.ofNat (n % 256)

/-- `name.endswith(_COUNT_CHARS)` (line 321): the last character is one of
the 25 reserved counter characters (code points 0 to 24). -/
def endsWithCountChar (s : String) : Bool :=
  match s.data.getLast? with
  | some c => c.toNat < 25
  | none => false

/-- One component manager as seen by the codec: resolved configuration,
counter state, and its registration dicts (`_components`, `_identifiers`,
and the `is_active()` verdict of each identifier's `_module_data`). -/
structure MgrState where
  sep : String
  count : Bool
  counter : Nat
  components : List (String × Factory)
  identifiers : List (String × String)
  moduleActive : List (String × Bool)
deriving DecidableEq

/-- `ComponentManager.increment` (lines 327-334): emit the character for the
current counter, then advance it, wrapping to 0 above 24. -/
def increment (st : MgrState) : Char × MgrState :=
  let c := minimiseCount st.counter
  let next := st.counter + 1
  (c, { st with counter := if next > 24 then 0 else next })

/-- `ComponentManager.get_identifier` (lines 314-325): split the custom id on
the separator; the head is the identifier, trimmed of one trailing counter
character when the counter feature is on. -/
def get_identifier (st : MgrState) (customId : String) : String × List String :=
  match pySplit st.sep customId with
  | [] => ("", [])
  | nm :: params =>
    if st.count = true ∧ endsWithCountChar nm = true then (String.mk nm.data.dropLast, params)
    else (nm, params)

/-- `ComponentManager.make_custom_id` (lines 336-346): look up the registered
identifier for the component's type name, append a counter character when
enabled, dump the parameters, and join everything on the separator. -/
def make_custom_id (st : MgrState) (typeName : String) (fac : Factory)
    (inst : List (String × PyValue)) : Except PyErr (String × MgrState) :=
  match dictGet st.identifiers typeName with
  | none => .error (.keyError "component type is not registered to this manager")
  | some ident0 =>
    let (ident, st1) :=
      if st.count then
        let (c, s) := increment st
        (ident0.push c, s)
      else (ident0, st)
    match dump_params fac inst with
    | .error e => .error e
    | .ok dumped => .ok (String.intercalate st.sep (ident :: dumped), st1)

/-- `ComponentManager.parse_raw_component` (lines 360-424): `None` for an
empty custom id, an unregistered identifier, or a stale module.  Otherwise
the code executes
`component_type.factory.build_component(reference, params, component_params=...)`;
`ComponentFactory.build_component` (factory.py lines 126-134) is declared as
`build_component(self, params, component_params=None)`, so `reference` binds
to `params`, `params` binds positionally to `component_param`s, and the
`component_params` keyword is a duplicate: Python raises `TypeError` before
any parameter is parsed.  (The stale branch also deregisters the component;
no claim depends on the post-state, so the state change is not returned.) -/
def parse_raw_component (st : MgrState) (customId : String) :
    Except PyErr (Option (List (String × PyValue))) :=
  if customId = "" then .ok none
  else
    match dictGet st.components (get_identifier st customId).1 with
    | none => .ok none
    | some _fac =>
      if (dictGet st.moduleActive (get_identifier st customId).1).getD true = false then .ok none
      else
        .error (.typeError "build_component got multiple values for argument component_params")

/-! ## Invocation pipeline (`invoke_component`, manager.py lines 688-744)

Exceptions are identified by a `Nat` code.  A manager node carries an
optional callback wrapper, reduced to the outcome of entering it (`.ok` or
the exception its setup raises), and an optional error handler, a function
from the exception to the tri-state Python result (`None` / `False` /
`True`).  The node list is the output of `_recurse_parents(self)` on the
component's owning manager: owning node first, root last. -/

/-- One manager node on the ancestor chain of the invoked component. -/
structure MNode where
  name : String
  wrapper : Option (Except Nat Unit)
  handler : Option (Nat → Option Bool)

/-- `try_handle_error` (lines 736-744): `False` without a registered handler,
else the handler's result with `or False` collapsing `None` to `False`. -/
def handlerSuccess (m : MNode) (e : Nat) : Bool :=
  match m.handler with
  | none => false
  | some h => (h e).getD false

/-- Names of the nodes with a registered error handler, in list order. -/
def handlerNames (ms : List MNode) : List String :=
  (ms.filter (fun m => m.handler.isSome)).map (fun m => m.name)

/-- Names of the nodes with a registered callback wrapper, in list order. -/
def wrapperNames (ms : List MNode) : List String :=
  (ms.filter (fun m => m.wrapper.isSome)).map (fun m => m.name)

/-- The wrapper-entry loop (lines 701-706): walk the given list (the code
iterates `reversed(managers)`, so the caller passes the reversed chain),
entering each registered wrapper; a raising setup aborts the walk.  Returns
the first raised exception, if any, and the entry log. -/
def enterSeq : List MNode → Except Nat Unit × List String
  | [] => (.ok (), [])
  | m :: rest =>
    match m.wrapper with
    | none => enterSeq rest
    | some (.ok ()) =>
      let (r, log) := enterSeq rest
      (r, m.name :: log)
    | some (.error e) => (.error e, [m.name])

/-- Outcome of the `try` body (lines 701-709): the callback runs only when
every wrapper entered; a wrapper's exception is the body's exception. -/
def bodyResult (ms : List MNode) (callback : Except Nat Unit) : Except Nat Unit :=
  match (enterSeq ms.reverse).1 with
  | .error e => .error e
  | .ok () => callback

/-- The wrapper-entry log of an invocation. -/
def entryLog (ms : List MNode) : List String := (enterSeq ms.reverse).2

/-- The handler loop (lines 716-718): walk the chain owning-node first; stop
at the first handler that reports success.  Returns whether the exception
was handled and the names of the handlers that were invoked, in order. -/
def handleSeq (e : Nat) : List MNode → Bool × List String
  | [] => (false, [])
  | m :: rest =>
    match m.handler with
    | none => handleSeq e rest
    | some h =>
      if (h e).getD false then (true, [m.name])
      else
        let (r, log) := handleSeq e rest
        (r, m.name :: log)

/-- `ComponentManager.invoke_component` (lines 688-725): enter the wrappers
of the reversed chain (root first), run the callback, and on any exception
walk the chain owning-node first through `try_handle_error`; re-raise the
original exception when no handler reports success.  Returns the outcome,
the wrapper-entry log, and the handler-invocation log. -/
def invoke_component (ms : List MNode) (callback : Except Nat Unit) :
    Except Nat Unit × List String × List String :=
  match bodyResult ms callback with
  | .ok () => (.ok (), entryLog ms, [])
  | .error e =>
    let (handled, hlog) := handleSeq e ms
    (if handled then .ok () else .error e, entryLog ms, hlog)

/-! ## Manager tree registration (manager.py lines 86-103, 501-542, 900-914)

A manager name is its dot-separated path, modelled as the list of path
segments; the root manager (named `"root"`, no dot) is `[]`.  The ancestor
chain is `_recurse_parents`: the node itself, then repeatedly the name up to
the last dot, ending at the root. -/

abbrev MgrName := List String

/-- Worker for `ancestors`, structurally recursive on a fuel that the caller
sets to the segment count (each parent step removes exactly one segment, so
the fuel never runs out; the middle branch is unreachable). -/
def ancestorsFrom : Nat → MgrName → List MgrName
  | _, [] => [[]]
  | 0, n => [n, []]
  | fuel + 1, n => n :: ancestorsFrom fuel n.dropLast

/-- `_recurse_parents` as a name chain: the node, its dot-parent
(`name.rsplit(".", 1)[0]`, the root for a dot-free name), up to the root. -/
def ancestors (n : MgrName) : List MgrName := ancestorsFrom n.length n

/-- `_ModuleData` (lines 86-103): defining module name and module object id. -/
structure ModuleData where
  mname : String
  mid : Nat
deriving DecidableEq

/-- `_ModuleData.is_reload_of` (lines 102-103): same module name, different
module object identity. -/
def is_reload_of (self other : ModuleData) : Bool :=
  self.mname == other.mname && self.mid != other.mid

/-- The registration dicts of every manager node, indexed by name.
Components are identified by a `Nat` key standing for the class object. -/
structure TreeState where
  comps : MgrName → List (String × Nat)
  moduleData : MgrName → List (String × ModuleData)
  idents : MgrName → List (String × String)

/-- The registration loop (lines 534-540): write the identifier, type-name
mapping and module data on the target node and every ancestor. -/
def applyReg (st : TreeState) (mgr : MgrName) (resolved typeName : String)
    (md : ModuleData) (comp : Nat) : TreeState :=
  { comps := fun m =>
      if m ∈ ancestors mgr then dictSet (st.comps m) resolved comp else st.comps m
    moduleData := fun m =>
      if m ∈ ancestors mgr then dictSet (st.moduleData m) resolved md else st.moduleData m
    idents := fun m =>
      if m ∈ ancestors mgr then dictSet (st.idents m) typeName resolved else st.idents m }

/-- `ComponentManager.register_component` (lines 501-542): resolve the
identifier (the type name by default); when it already exists at the root,
fail with the duplicate-identifier `RuntimeError` unless the new module data
is a reload of the recorded one; then record the registration on the target
node and every ancestor. -/
def register_component (st : TreeState) (mgr : MgrName) (typeName : String)
    (identifier : Option String) (md : ModuleData) (comp : Nat) : Except PyErr TreeState :=
  let resolved := identifier.getD typeName
  match dictGet (st.comps []) resolved with
  | some _ =>
    match dictGet (st.moduleData []) resolved with
    | none => .error (.keyError "module data missing for registered identifier")
    | some old =>
      if is_reload_of md old = false then
        .error (.runtimeError "Cannot register component with duplicate identifier.")
      else
        .ok (applyReg st mgr resolved typeName md comp)
  | none => .ok (applyReg st mgr resolved typeName md comp)

/-! ## Concrete fixtures used by the theorems -/

/-- An optional union over a single default `IntParser`, as produced by
`UnionParser(IntParser(), None)`. -/
def exOptIntUnion : UnionCfg := { inner := [.intP {}, .noneP true], optional := true }

/-- The union of the spec example `Optional[Union[int, str]]` with parsers
`[IntParser, StringParser]`, as produced by
`UnionParser(IntParser(), StringParser(), None)`. -/
def exIntStrUnion : UnionCfg := { inner := [.intP {}, .strP, .noneP true], optional := true }

/-- The factory of the end-to-end example component: a single integer
custom-id field `count` parsed by a default `IntParser`. -/
def ctrFactory : Factory := { fields := [{ name := "count", fp := .intP {} }] }

/-- The end-to-end example manager: separator `"|"`, counter disabled, with
the example component registered under identifier `"Ctr"` from a live
module. -/
def ctrState : MgrState :=
  { sep := "|", count := false, counter := 0
    components := [("Ctr", ctrFactory)]
    identifiers := [("Ctr", "Ctr")]
    moduleActive := [("Ctr", true)] }

/-- A type environment where every registered entry accepts every query
(every declared type is a supertype, as with `object`). -/
def envAll : TypeEnv := { issub := fun _ _ => some true }

/-- Two parser classes registered in order for the same type key `100`, both
at the default priority `0`. -/
def regTwo : RegState :=
  registerParserM (registerParserM { parsers := [], revParsers := [], priority := [] } 1 [100] 0)
    2 [100] 0

/-- Owning node of the pipeline example: clean wrapper, handler that reports
failure for exception `7`. -/
def exLeaf : MNode :=
  { name := "leaf", wrapper := some (.ok ())
    handler := some (fun e => if e = 7 then some false else none) }

/-- Middle node of the pipeline example: no wrapper, handler that reports
success for exception `7`. -/
def exMid : MNode :=
  { name := "mid", wrapper := none
    handler := some (fun e => if e = 7 then some true else some false) }

/-- Root node of the pipeline example: clean wrapper, handler that always
reports success (it must never be reached for exception `7`). -/
def exRoot : MNode :=
  { name := "root", wrapper := some (.ok ())
    handler := some (fun _ => some true) }

/-- The ancestor chain of the pipeline example, owning node first. -/
def exChain : List MNode := [exLeaf, exMid, exRoot]

/-- A manager tree with no registrations. -/
def emptyTree : TreeState :=
  { comps := fun _ => [], moduleData := fun _ => [], idents := fun _ => [] }

/-- Module data of the example component's defining module. -/
def mdA : ModuleData := { mname := "app.mod", mid := 1 }

/-- The same module after a reload: same name, different object identity. -/
def mdA2 : ModuleData := { mname := "app.mod", mid := 2 }

/-- A different module that also tries to register the same identifier. -/
def mdB : ModuleData := { mname := "other.mod", mid := 3 }

/-- The tree after registering component `7` as `"Ctr"` on manager `a.b`. -/
def treeAB : TreeState := applyReg emptyTree ["a", "b"] "Ctr" "Ctr" mdA 7

/-- The tree after registering component `7` as `"Ctr"` on manager `a`. -/
def treeA : TreeState := applyReg emptyTree ["a"] "Ctr" "Ctr" mdA 7

/-! ## Helper lemmas -/

theorem dictGet_dictSet_self {κ β : Type} [DecidableEq κ] (d : List (κ × β)) (k : κ) (v : β) :
    dictGet (dictSet d k v) k = some v := by
  induction d with
  | nil => simp [dictSet, dictGet]
  | cons hd tl ih =>
    obtain ⟨k0, v0⟩ := hd
    by_cases h : k = k0
    · simp [dictSet, dictGet, h]
    · simp [dictSet, dictGet, h, ih]

theorem collFragments_eq_loadFragments (inner : FieldParser) (parts : List String) :
    collFragments inner parts =
      loadFragments inner (parts.filter (fun p => !pyIsSpace p)) := by
  induction parts with
  | nil => rfl
  | cons p rest ih =>
    by_cases h : pyIsSpace p = true
    · simp [collFragments, loadFragments, h, ih]
    · simp only [Bool.not_eq_true] at h
      simp [collFragments, loadFragments, h, ih]

theorem firstOkDump_none_of_fail (v : PyValue) (ps : List FieldParser)
    (h : ∀ q ∈ ps, exOk (fp_dumps q v) = false) : firstOkDump v ps = none := by
  induction ps with
  | nil => rfl
  | cons p rest ih =>
    have hp := h p (List.mem_cons_self p rest)
    cases hq : fp_dumps p v with
    | ok s => rw [hq] at hp; simp [exOk] at hp
    | error e =>
      simp only [firstOkDump, hq]
      exact ih (fun q hm => h q (List.mem_cons_of_mem p hm))

theorem firstOkDump_append_of_fail (v : PyValue) (pre rest : List FieldParser)
    (h : ∀ q ∈ pre, exOk (fp_dumps q v) = false) :
    firstOkDump v (pre ++ rest) = firstOkDump v rest := by
  induction pre with
  | nil => rfl
  | cons p ps ih =>
    have hp := h p (List.mem_cons_self p ps)
    cases hq : fp_dumps p v with
    | ok s => rw [hq] at hp; simp [exOk] at hp
    | error e =>
      simp only [List.cons_append, firstOkDump, hq]
      exact ih (fun q hm => h q (List.mem_cons_of_mem p hm))

theorem scanLoads_all_fail (s : String) (ps : List FieldParser)
    (h : ∀ q ∈ ps, exOk (fp_loads q s) = false) :
    scanLoads s ps = (.error (.runtimeError "Failed to parse input to any type in the Union."), ps) := by
  induction ps with
  | nil => rfl
  | cons p rest ih =>
    have hp := h p (List.mem_cons_self p rest)
    cases hq : fp_loads p s with
    | ok v => rw [hq] at hp; simp [exOk] at hp
    | error e =>
      simp only [scanLoads, hq]
      rw [ih (fun q hm => h q (List.mem_cons_of_mem p hm))]

theorem scanLoads_first_success (s : String) (pre : List FieldParser) (p : FieldParser)
    (post : List FieldParser) (v : PyValue)
    (hpre : ∀ q ∈ pre, exOk (fp_loads q s) = false)
    (hp : fp_loads p s = .ok v) :
    scanLoads s (pre ++ p :: post) = (.ok v, pre ++ [p]) := by
  induction pre with
  | nil => simp [scanLoads, hp]
  | cons q qs ih =>
    have hq0 := hpre q (List.mem_cons_self q qs)
    cases hq : fp_loads q s with
    | ok w => rw [hq] at hq0; simp [exOk] at hq0
    | error e =>
      have ih2 := ih (fun r hm => hpre r (List.mem_cons_of_mem q hm))
      simp only [List.cons_append, scanLoads, hq, List.append_eq, ih2]

theorem find?_congr_mem {α : Type} (l : List α) (p q : α → Bool)
    (h : ∀ a ∈ l, p a = q a) : l.find? p = l.find? q := by
  induction l with
  | nil => rfl
  | cons a tl ih =>
    have ha := h a (List.mem_cons_self a tl)
    have ih2 := ih (fun b hb => h b (List.mem_cons_of_mem a hb))
    simp only [List.find?, ha, ih2]

theorem firstMax_cons_step {α : Type} (key : α → Int) (x y : α) (ys : List α) :
    firstMaxByKey key (x :: y :: ys) =
      firstMaxByKey key ((if key y > key x then y else x) :: ys) := by
  by_cases hxy : key x < key y
  · rw [if_pos hxy]
    unfold firstMaxByKey
    rw [List.find?_cons_of_neg]
    · apply find?_congr_mem
      intro a _
      simp only [List.all_cons]
      by_cases hya : key y ≤ key a
      · have hxa : key x ≤ key a := by omega
        simp [hxa, hya]
      · simp [hya]
    · simp only [List.all_cons, Bool.and_eq_true, decide_eq_true_eq]
      rintro ⟨-, hy, -⟩
      omega
  · rw [if_neg hxy]
    unfold firstMaxByKey
    have hfun :
        (fun z => (x :: y :: ys).all (fun b => decide (key b ≤ key z))) =
          (fun z => (x :: ys).all (fun b => decide (key b ≤ key z))) := by
      funext a
      simp only [List.all_cons]
      by_cases hxa : key x ≤ key a
      · have hya : key y ≤ key a := by omega
        simp [hxa, hya]
      · simp [hxa]
    rw [hfun]
    by_cases hPx : ((x :: ys).all (fun b => decide (key b ≤ key x))) = true
    · simp only [List.find?, hPx]
    · have hPxf : ((x :: ys).all (fun b => decide (key b ≤ key x))) = false := by
        simpa using hPx
      have hPy : ((x :: ys).all (fun b => decide (key b ≤ key y))) = false := by
        by_cases hxy2 : key x ≤ key y
        · have hk : key y = key x := by omega
          simp only [hk]
          exact hPxf
        · have hd : decide (key x ≤ key y) = false := decide_eq_false hxy2
          simp [List.all_cons, hd]
      simp only [List.find?, hPxf, hPy]

theorem firstMax_eq_pyMaxFold {α : Type} (key : α → Int) (x : α) (xs : List α) :
    firstMaxByKey key (x :: xs) = some (pyMaxFold key x xs) := by
  induction xs generalizing x with
  | nil =>
    simp [firstMaxByKey, pyMaxFold, List.find?]
  | cons y ys ih =>
    rw [firstMax_cons_step key x y ys]
    rw [show pyMaxFold key x (y :: ys) = pyMaxFold key (if key y > key x then y else x) ys
      from rfl]
    exact ih _

theorem pyMaxByKey_eq_firstMax {α : Type} (key : α → Int) (l : List α) :
    pyMaxByKey key l = firstMaxByKey key l := by
  cases l with
  | nil => rfl
  | cons x xs =>
    rw [show pyMaxByKey key (x :: xs) = some (pyMaxFold key x xs) from rfl,
      firstMax_eq_pyMaxFold]

theorem enterSeq_clean (ms : List MNode)
    (h : ∀ m ∈ ms, m.wrapper = none ∨ m.wrapper = some (.ok ())) :
    enterSeq ms = (.ok (), wrapperNames ms) := by
  induction ms with
  | nil => rfl
  | cons m rest ih =>
    have ih2 := ih (fun q hq => h q (List.mem_cons_of_mem m hq))
    rcases h m (List.mem_cons_self m rest) with h0 | h1
    · simp [enterSeq, wrapperNames, h0, ih2]
    · simp [enterSeq, wrapperNames, h1, ih2]

theorem handleSeq_all_fail (e : Nat) (ms : List MNode)
    (h : ∀ m ∈ ms, handlerSuccess m e = false) :
    handleSeq e ms = (false, handlerNames ms) := by
  induction ms with
  | nil => rfl
  | cons m rest ih =>
    have hm := h m (List.mem_cons_self m rest)
    have ih2 := ih (fun q hq => h q (List.mem_cons_of_mem m hq))
    cases hh : m.handler with
    | none => simp [handleSeq, handlerNames, hh, ih2]
    | some hd =>
      simp only [handlerSuccess, hh] at hm
      simp [handleSeq, handlerNames, hh, hm, ih2]

theorem handleSeq_first_success (e : Nat) (pre : List MNode) (m : MNode) (post : List MNode)
    (hpre : ∀ q ∈ pre, handlerSuccess q e = false)
    (hm : handlerSuccess m e = true) :
    handleSeq e (pre ++ m :: post) = (true, handlerNames pre ++ [m.name]) := by
  induction pre with
  | nil =>
    cases hh : m.handler with
    | none => simp only [handlerSuccess, hh] at hm; cases hm
    | some hd =>
      simp only [handlerSuccess, hh] at hm
      simp [handleSeq, handlerNames, hh, hm]
  | cons q qs ih =>
    have hq0 := hpre q (List.mem_cons_self q qs)
    have ih2 := ih (fun r hr => hpre r (List.mem_cons_of_mem q hr))
    cases hh : q.handler with
    | none => simp [handleSeq, handlerNames, hh, ih2]
    | some hd =>
      simp only [handlerSuccess, hh] at hq0
      simp [handleSeq, handlerNames, hh, hq0, ih2]

/-- `is_reload_of` as a proposition: same module name, different identity. -/
theorem is_reload_of_iff (a b : ModuleData) :
    is_reload_of a b = true ↔ (a.mname = b.mname ∧ a.mid ≠ b.mid) := by
  simp [is_reload_of]

/-! ## Claim theorems -/

/-- Claim C1, evaluation at the failing inputs: the parser round-trip
`loads(dumps(x)) == x` fails on the code.  `IntParser(base=36).dumps(10)`
short-circuits to the decimal string `"10"`, which `loads` reads back as 36;
`base=12` renders through the mislabelled hexadecimal constant, so 50 dumps
to `"32"` which reads back as 38; and `CollectionParser.dumps` joins on the
literal `","` instead of the configured separator, so with `sep=";"` the
two-element collection `["a", "b"]` comes back as the one-element
`["a,b"]`. -/
theorem claim1_roundtrip_failure_eval :
    int_loads {} (int_dumps {} 10) = .ok 36
  ∧ (Except.ok 36 : Except PyErr Int) ≠ .ok 10
  ∧ int_dumps { base := 12 } 50 = "32"
  ∧ int_loads { base := 12 } "32" = .ok 38
  ∧ collection_dumps .strP [.vstr "a", .vstr "b"] = .ok "a,b"
  ∧ collection_loads .strP ";" "a,b" = .ok [.vstr "a,b"]
  ∧ ([PyValue.vstr "a,b"] : List PyValue) ≠ [.vstr "a", .vstr "b"] := by
  decide

/-- Claim C2, evaluation: encoding the `count=5` instance of the component
registered as `"Ctr"` (separator `"|"`, counter disabled) yields exactly
`"Ctr|5"`, and decoding `"Unknown|5"` resolves to no match; but decoding
`"Ctr|5"` and rebuilding raises a `TypeError` instead of producing the
instance, because `parse_raw_component` passes `reference` to
`ComponentFactory.build_component`, whose implemented signature has no such
parameter.  `load_params` alone would have produced `count=5`. -/
theorem claim2_end_to_end_eval :
    make_custom_id ctrState "Ctr" ctrFactory [("count", .vint 5)] = .ok ("Ctr|5", ctrState)
  ∧ get_identifier ctrState "Ctr|5" = ("Ctr", ["5"])
  ∧ load_params ctrFactory ["5"] = .ok [("count", .vint 5)]
  ∧ parse_raw_component ctrState "Ctr|5" =
      .error (.typeError "build_component got multiple values for argument component_params")
  ∧ parse_raw_component ctrState "Unknown|5" = .ok none := by
  decide

/-- Claim C3, counterexample: for the optional union built from
`UnionParser(IntParser(), None)`, dumping the integer 0 returns the empty
string via the falsy quick-return, not the inner integer parser's dump
`"0"` as the claim states. -/
theorem claim3_counterexample :
    mkUnion [some (.intP {}), none] = .ok exOptIntUnion
  ∧ union_dumps exOptIntUnion (.vint 0) = .ok ""
  ∧ fp_dumps (.intP {}) (.vint 0) = .ok "0"
  ∧ ("" : String) ≠ "0" := by
  decide

/-- Claim C3, amended: `UnionParser.dumps` first quick-returns the empty
string whenever the runtime value is falsy and the union is optional;
otherwise it tries the inner parsers in declared order and returns the first
successful dump; when every inner parser fails it returns the empty string
if the union is optional and non-strict, and raises otherwise. -/
theorem claim3_amended_dumps :
    ∀ (u : UnionCfg) (v : PyValue),
      (pyFalsy v = true → u.optional = true → union_dumps u v = .ok "") ∧
      (¬(pyFalsy v = true ∧ u.optional = true) →
        (∀ pre p post s, u.inner = pre ++ p :: post →
          (∀ q ∈ pre, exOk (fp_dumps q v) = false) →
          fp_dumps p v = .ok s →
          union_dumps u v = .ok s) ∧
        ((∀ q ∈ u.inner, exOk (fp_dumps q v) = false) →
          (u.optional = true ∧ unionStrict u = false → union_dumps u v = .ok "") ∧
          (¬(u.optional = true ∧ unionStrict u = false) →
            union_dumps u v =
              .error (.runtimeError "Failed to dump input to any type in the Union.")))) := by
  intro u v
  refine ⟨fun hf ho => ?_, fun hno => ⟨?_, ?_⟩⟩
  · rw [union_dumps, if_pos ⟨hf, ho⟩]
  · intro pre p post s hsplit hpre hp
    rw [union_dumps, if_neg hno, hsplit, firstOkDump_append_of_fail v pre _ hpre]
    simp [firstOkDump, hp]
  · intro hall
    have h0 : firstOkDump v u.inner = none := firstOkDump_none_of_fail v u.inner hall
    refine ⟨fun hsoft => ?_, fun hhard => ?_⟩
    · rw [union_dumps, if_neg hno, h0, if_pos hsoft]
    · rw [union_dumps, if_neg hno, h0, if_neg hhard]

/-- Claim C3, witness: dumping the non-falsy integer 7 through the optional
union does reach the inner integer parser and returns its dump. -/
theorem claim3_witness : union_dumps exOptIntUnion (.vint 7) = .ok "7" :=
  ((claim3_amended_dumps exOptIntUnion (.vint 7)).2 (by decide)).1
    [] (.intP {}) [.noneP true] "7" rfl
    (fun q hq => absurd hq (List.not_mem_nil q)) (by decide)

/-- Claim C5: `UnionParser.loads` on an optional union returns `None` for
the empty string without invoking any inner parser; on a non-empty input it
tries the inner parsers in declared order, suppresses each failure, returns
the first success, and raises only after all inner parsers have failed; in
particular with inner parsers `[IntParser, StringParser]` it loads `"5"` as
the integer 5, never the string `"5"`. -/
theorem claim5_union_loads_order :
    (∀ (u : UnionCfg), u.optional = true → union_loads u "" = (.ok .vnone, [])) ∧
    (∀ (u : UnionCfg) (s : String), s ≠ "" →
      (∀ pre p post v, u.inner = pre ++ p :: post →
        (∀ q ∈ pre, exOk (fp_loads q s) = false) →
        fp_loads p s = .ok v →
        union_loads u s = (.ok v, pre ++ [p])) ∧
      ((∀ q ∈ u.inner, exOk (fp_loads q s) = false) →
        union_loads u s =
          (.error (.runtimeError "Failed to parse input to any type in the Union."), u.inner))) ∧
    (mkUnion [some (.intP {}), some .strP, none] = .ok exIntStrUnion ∧
      union_loads exIntStrUnion "5" = (.ok (.vint 5), [.intP {}])) := by
  refine ⟨fun u ho => ?_, fun u s hs => ?_, by decide⟩
  · rw [union_loads, if_pos ⟨rfl, ho⟩]
  · have hc : ¬(s = "" ∧ u.optional = true) := fun h => hs h.1
    refine ⟨fun pre p post v hsplit hpre hp => ?_, fun hall => ?_⟩
    · rw [union_loads, if_neg hc, hsplit]
      exact scanLoads_first_success s pre p post v hpre hp
    · rw [union_loads, if_neg hc]
      exact scanLoads_all_fail s u.inner hall

/-- Claim C5, witness: the declared-order scan at a concrete input. -/
theorem claim5_witness : union_loads exIntStrUnion "7" = (.ok (.vint 7), [.intP {}]) :=
  (claim5_union_loads_order.2.1 exIntStrUnion "7" (by decide)).1
    [] (.intP {}) [.strP, .noneP true] (.vint 7) rfl
    (fun q hq => absurd hq (List.not_mem_nil q)) (by decide)

/-- Claim C7, counterexample: empty fragments are NOT skipped by
`CollectionParser.loads` (Python `"".isspace()` is false): with a string
inner parser the empty fragment of `"a,,b"` is parsed and kept, and with an
integer inner parser the empty fragment of `"1,,2"` raises instead of being
skipped. -/
theorem claim7_counterexample :
    collection_loads .strP "," "a,,b" = .ok [.vstr "a", .vstr "", .vstr "b"]
  ∧ collection_loads (.intP {}) "," "1,,2" = .error (.valueError "invalid literal for int") := by
  decide

/-- Claim C7, amended: `CollectionParser.loads` splits on the configured
separator and skips exactly the fragments that are nonempty and consist
only of whitespace; every other fragment — the empty fragment included — is
passed to the inner parser in order and its result kept in order. -/
theorem claim7_amended_split_policy :
    (∀ (inner : FieldParser) (sep argument : String),
      collection_loads inner sep argument =
        loadFragments inner ((pySplit sep argument).filter (fun p => !pyIsSpace p))) ∧
    pyIsSpace "" = false ∧ pyIsSpace " " = true := by
  refine ⟨fun inner sep argument => ?_, by decide, by decide⟩
  rw [collection_loads]
  exact collFragments_eq_loadFragments inner (pySplit sep argument)

/-- Claim C4, counterexample: with two parser classes registered in order
for the same type key at equal priority, a subclass query resolves to the
EARLIEST-registered entry (Python `max` keeps the first maximal element),
not the most recently registered one as the claim states. -/
theorem claim4_counterexample :
    getParserType envAll regTwo 200 = .ok 1
  ∧ getParserType envAll regTwo 200 ≠ .ok 2 := by
  decide

/-- Claim C4, amended: `_get_parser_type` first performs an exact-key
lookup; on a miss it considers exactly the registered entries whose declared
types accept the query (with identity fallback inside `pyIssubclass`) and
returns the entry with the highest priority, breaking priority ties in
favour of the EARLIEST-registered entry; when no entry matches it fails
with the no-parser `TypeError`. -/
theorem claim4_amended_resolution :
    ∀ (env : TypeEnv) (st : RegState) (t : TypeKey),
      (∀ p, dictGet st.parsers t = some p → getParserType env st t = .ok p) ∧
      (dictGet st.parsers t = none →
        (candidateEntries env st t = [] →
          getParserType env st t = .error (.typeError "No parser available for type.")) ∧
        (∀ e, firstMaxByKey (prioOf st) (candidateEntries env st t) = some e →
          getParserType env st t = .ok e.1)) := by
  intro env st t
  refine ⟨fun p hp => ?_, fun hnone => ⟨fun hcand => ?_, fun e he => ?_⟩⟩
  · simp only [getParserType, hp]
  · simp only [getParserType, hnone, hcand]
    rfl
  · have hmax : pyMaxByKey (prioOf st) (candidateEntries env st t) = some e := by
      rw [pyMaxByKey_eq_firstMax]
      exact he
    simp only [getParserType, hnone, hmax]

/-- Claim C4, witness: the amended resolution applied at the concrete miss. -/
theorem claim4_witness : getParserType envAll regTwo 200 = .ok 1 :=
  ((claim4_amended_resolution envAll regTwo 200).2 (by decide)).2 (1, [100]) (by decide)

/-- Claim C6, counterexample: a custom id whose parameter count does not
match the factory's single field (`"Ctr|1|2"`) makes the parse step raise —
it does not recover with no-match (`None`) — and the factory's own arity
check raises a `ValueError` that nothing in the parse path catches. -/
theorem claim6_counterexample :
    parse_raw_component ctrState "Ctr|1|2" =
      .error (.typeError "build_component got multiple values for argument component_params")
  ∧ parse_raw_component ctrState "Ctr|1|2" ≠ .ok none
  ∧ load_params ctrFactory ["1", "2"] =
      .error (.valueError "Component parameter count mismatch.") := by
  decide

/-- Claim C6, amended: `parse_raw_component` returns no-match (`None`)
exactly for an empty custom id, an identifier that is not registered, or a
stale defining module; a parameter-count mismatch is not recovered — the
exception from the build step propagates out of the parse call. -/
theorem claim6_amended_no_recovery :
    ∀ (st : MgrState) (customId : String),
      parse_raw_component st customId = .ok none ↔
        (customId = "" ∨
          dictGet st.components (get_identifier st customId).1 = none ∨
          (dictGet st.moduleActive (get_identifier st customId).1).getD true = false) := by
  intro st cid
  by_cases h0 : cid = ""
  · simp [parse_raw_component, h0]
  · cases h1 : dictGet st.components (get_identifier st cid).1 with
    | none => simp [parse_raw_component, h0, h1]
    | some fac =>
      by_cases h2 : (dictGet st.moduleActive (get_identifier st cid).1).getD true = false
      · simp [parse_raw_component, h0, h1, h2]
      · simp [parse_raw_component, h0, h1, h2]

/-- Claim C8: when the try body of `invoke_component` (wrapper entries, then
the callback) raises, the error handlers are invoked starting at the
component's owning node and walking up to the root — the reverse of the
wrapper-entry order, which is root first — the first handler that reports
success stops propagation, and when no handler on the chain reports success
the original exception is re-raised unchanged. -/
theorem claim8_error_handler_chain :
    ∀ (ms : List MNode) (cb : Except Nat Unit) (e : Nat),
      bodyResult ms cb = .error e →
      ((∀ m ∈ ms, m.wrapper = none ∨ m.wrapper = some (.ok ())) →
        entryLog ms = wrapperNames ms.reverse) ∧
      (∀ pre m post, ms = pre ++ m :: post →
        (∀ q ∈ pre, handlerSuccess q e = false) →
        handlerSuccess m e = true →
        invoke_component ms cb = (.ok (), entryLog ms, handlerNames pre ++ [m.name])) ∧
      ((∀ q ∈ ms, handlerSuccess q e = false) →
        invoke_component ms cb = (.error e, entryLog ms, handlerNames ms)) := by
  intro ms cb e hbody
  refine ⟨fun hclean => ?_, fun pre m post hsplit hpre hm => ?_, fun hall => ?_⟩
  · rw [entryLog, enterSeq_clean ms.reverse (fun q hq => hclean q (List.mem_reverse.mp hq))]
  · subst hsplit
    simp only [invoke_component, hbody,
      handleSeq_first_success e pre m post hpre hm]
    simp
  · simp only [invoke_component, hbody, handleSeq_all_fail e ms hall]
    simp

/-- Claim C8, witness: a three-node chain (owning `leaf`, then `mid`, then
`root`): wrappers are entered root first, the failing `leaf` handler is
consulted first, `mid` succeeds and stops the walk before `root`. -/
theorem claim8_witness :
    invoke_component exChain (.error 7) = (.ok (), ["root", "leaf"], ["leaf", "mid"]) := by
  have h := claim8_error_handler_chain exChain (.error 7) 7 (by decide)
  rw [h.2.1 [exLeaf] exMid [exRoot] rfl (by decide) (by decide)]
  rfl

/-- Claim C9: a successful registration records the resolved identifier on
the target manager node and on every ancestor up to and including the root,
and leaves every manager outside that ancestor chain untouched. -/
theorem claim9_registration_propagation :
    ∀ (st : TreeState) (mgr : MgrName) (tn : String) (idf : Option String)
      (md : ModuleData) (comp : Nat) (st2 : TreeState),
      register_component st mgr tn idf md comp = .ok st2 →
      (∀ a ∈ ancestors mgr, dictGet (st2.comps a) (idf.getD tn) = some comp) ∧
      (∀ m, m ∉ ancestors mgr →
        st2.comps m = st.comps m ∧ st2.idents m = st.idents m ∧
          st2.moduleData m = st.moduleData m) := by
  intro st mgr tn idf md comp st2 hreg
  have hmain : st2 = applyReg st mgr (idf.getD tn) tn md comp := by
    simp only [register_component] at hreg
    cases h1 : dictGet (st.comps []) (idf.getD tn) with
    | none =>
      simp only [h1] at hreg
      injection hreg with h
      exact h.symm
    | some c =>
      simp only [h1] at hreg
      cases h2 : dictGet (st.moduleData []) (idf.getD tn) with
      | none =>
        simp only [h2] at hreg
        exact Except.noConfusion hreg
      | some old =>
        simp only [h2] at hreg
        by_cases h3 : is_reload_of md old = false
        · rw [if_pos h3] at hreg
          exact Except.noConfusion hreg
        · rw [if_neg h3] at hreg
          injection hreg with h
          exact h.symm
  subst hmain
  refine ⟨fun a ha => ?_, fun m hm => ?_⟩
  · simp only [applyReg]
    rw [if_pos ha]
    exact dictGet_dictSet_self _ _ _
  · simp only [applyReg]
    rw [if_neg hm, if_neg hm, if_neg hm]
    exact ⟨rfl, rfl, rfl⟩

/-- Claim C9, witness: registering component `7` as `"Ctr"` on manager
`a.b` makes it discoverable on `a.b`, `a` and the root, and not on the
sibling `a.c`. -/
theorem claim9_witness :
    register_component emptyTree ["a", "b"] "Ctr" none mdA 7 = .ok treeAB
  ∧ dictGet (treeAB.comps ["a", "b"]) "Ctr" = some 7
  ∧ dictGet (treeAB.comps ["a"]) "Ctr" = some 7
  ∧ dictGet (treeAB.comps []) "Ctr" = some 7
  ∧ treeAB.comps ["a", "c"] = emptyTree.comps ["a", "c"] := by
  have h := claim9_registration_propagation emptyTree ["a", "b"] "Ctr" none mdA 7 treeAB rfl
  exact ⟨rfl, h.1 ["a", "b"] (by decide), h.1 ["a"] (by decide), h.1 [] (by decide),
    (h.2 ["a", "c"] (by decide)).1⟩

/-- Claim C10: when the resolved identifier is already registered at the
root, registering again succeeds (silently replacing) exactly when the new
module data is a reload of the recorded one — same module name, different
module identity; in every other case, the exact same module instance
included, registration raises the duplicate-identifier error. -/
theorem claim10_duplicate_registration :
    ∀ (st : TreeState) (mgr : MgrName) (tn : String) (idf : Option String)
      (md : ModuleData) (comp : Nat) (c0 : Nat) (old : ModuleData),
      dictGet (st.comps []) (idf.getD tn) = some c0 →
      dictGet (st.moduleData []) (idf.getD tn) = some old →
      (exOk (register_component st mgr tn idf md comp) = true ↔
        (md.mname = old.mname ∧ md.mid ≠ old.mid)) := by
  intro st mgr tn idf md comp c0 old h1 h2
  simp only [register_component, h1, h2]
  cases h3 : is_reload_of md old with
  | false =>
    rw [if_pos rfl]
    constructor
    · intro hc
      simp [exOk] at hc
    · intro hP
      have ht := (is_reload_of_iff md old).mpr hP
      rw [h3] at ht
      cases ht
  | true =>
    rw [if_neg (by simp)]
    exact ⟨fun _ => (is_reload_of_iff md old).mp h3, fun _ => rfl⟩

/-- Claim C10, witness: with `"Ctr"` already registered from module
`app.mod` (identity 1), re-registering from the same unreloaded module
raises, re-registering after a reload (identity 2) succeeds, and
registering from a different module raises. -/
theorem claim10_witness :
    exOk (register_component treeA ["a"] "Ctr" none mdA 9) = false
  ∧ exOk (register_component treeA ["a"] "Ctr" none mdA2 9) = true
  ∧ exOk (register_component treeA ["a"] "Ctr" none mdB 9) = false := by
  have h1 := claim10_duplicate_registration treeA ["a"] "Ctr" none mdA 9 7 mdA
    (by decide) (by decide)
  have h2 := claim10_duplicate_registration treeA ["a"] "Ctr" none mdA2 9 7 mdA
    (by decide) (by decide)
  have h3 := claim10_duplicate_registration treeA ["a"] "Ctr" none mdB 9 7 mdA
    (by decide) (by decide)
  refine ⟨?_, h2.mpr ⟨rfl, by decide⟩, ?_⟩
  · cases hx : exOk (register_component treeA ["a"] "Ctr" none mdA 9) with
    | false => rfl
    | true => exact absurd rfl (h1.mp hx).2
  · cases hx : exOk (register_component treeA ["a"] "Ctr" none mdB 9) with
    | false => rfl
    | true => exact absurd (h3.mp hx).1 (by decide)

end Ryoshu
